import Mathlib

/-!
Verification development for the whatsapp-chatbot-builder repository.

The repository consists of a drizzle-orm Postgres schema (automations,
automation_nodes, automation_edges, automation_executions,
automation_execution_logs, channels, contacts, ...) and two express
controllers (channels, contacts).  We embed the claim-relevant tables as
Lean structures, the schema's foreign-key `onDelete: "cascade"` and
`unique` constraints as executable operations on a list-backed store, and
the controller bodies as Lean functions mirroring the TypeScript
statement by statement.  Timestamp, layout and free-form jsonb payload
columns that no claim touches are omitted from the row structures.
-/

/-- One row of the `automations` table (schema part_000, lines 318-342).
`trigger` is `text notNull`; `status` defaults to "inactive". -/
structure AutomationRow where
  id : String
  channelId : Option String
  name : String
  trigger : String
  status : String
deriving Repr, DecidableEq

/-- One row of `automation_nodes` (lines 345-373).  `nodeId` carries a
global `.unique()` constraint and `(automationId, nodeId)` the
`nodeUniqueIdx` unique index; `automationId` references `automations.id`
with `onDelete: "cascade"`. -/
structure NodeRow where
  id : String
  automationId : String
  nodeId : String
  type : String
  subtype : Option String
deriving Repr, DecidableEq

/-- One row of `automation_edges` (lines 376-408).  `automationId`
references `automations.id` and `sourceNodeId`/`targetNodeId` reference
`automationNodes.nodeId`, all with `onDelete: "cascade"`;
`(automationId, sourceNodeId, targetNodeId)` is unique (`edgeUniqueIdx`). -/
structure EdgeRow where
  id : String
  automationId : String
  sourceNodeId : String
  targetNodeId : String
  animated : Bool
deriving Repr, DecidableEq

/-- One row of `automation_executions` (lines 411-442).  `automationId`
references `automations.id` with `onDelete: "cascade"`; `status` is
free text (commented in the schema as running, completed, failed). -/
structure ExecutionRow where
  id : String
  automationId : String
  contactId : Option String
  status : String
  currentNodeId : Option String
  executionPath : List String
  result : Option String
  error : Option String
deriving Repr, DecidableEq

/-- One row of `automation_execution_logs` (lines 445-467).
`executionId` references `automationExecutions.id` with
`onDelete: "cascade"`; `nodeId` and `nodeType` are plain text. -/
structure LogRow where
  id : String
  executionId : String
  nodeId : String
  nodeType : String
  status : String
  error : Option String
deriving Repr, DecidableEq

/-- The automation-related tables of the store. -/
structure Store where
  automations : List AutomationRow
  nodes : List NodeRow
  edges : List EdgeRow
  executions : List ExecutionRow
  logs : List LogRow
deriving Repr, DecidableEq

/-- The schema's declarative constraints on the automation tables, as a
decidable predicate: primary-key uniqueness, the `nodeId` global unique
constraint (line 354), and every declared foreign key.  Note the edge
endpoint foreign keys reference `automationNodes.nodeId` globally - they
do not require the endpoint node to belong to the edge's automation. -/
def Store.wf (s : Store) : Bool :=
  (s.automations.map AutomationRow.id).Nodup &&
  (s.nodes.map NodeRow.nodeId).Nodup &&
  (s.nodes.all fun n => s.automations.any fun a => a.id = n.automationId) &&
  (s.edges.all fun e =>
    (s.automations.any fun a => a.id = e.automationId) &&
    (s.nodes.any fun n => n.nodeId = e.sourceNodeId) &&
    (s.nodes.any fun n => n.nodeId = e.targetNodeId)) &&
  (s.executions.all fun x => s.automations.any fun a => a.id = x.automationId) &&
  (s.logs.all fun l => s.executions.any fun x => x.id = l.executionId)

/-- Deleting an automation row, with the cascades the schema declares:
nodes and edges of the automation are removed (`onDelete: "cascade"` on
their `automationId`), edges whose endpoint node was removed are removed
(`onDelete: "cascade"` on `sourceNodeId`/`targetNodeId`), executions of
the automation are removed (`onDelete: "cascade"` on
`automationExecutions.automationId`, lines 417-419), and log rows of a
removed execution are removed (`onDelete: "cascade"` on
`automationExecutionLogs.executionId`, lines 451-453). -/
def deleteAutomation (s : Store) (aid : String) : Store :=
  let deadNodeIds := (s.nodes.filter fun n => n.automationId = aid).map NodeRow.nodeId
  let deadExecIds := (s.executions.filter fun x => x.automationId = aid).map ExecutionRow.id
  { automations := s.automations.filter fun a => a.id ≠ aid
    nodes := s.nodes.filter fun n => n.automationId ≠ aid
    edges := s.edges.filter fun e =>
      e.automationId ≠ aid && e.sourceNodeId ∉ deadNodeIds && e.targetNodeId ∉ deadNodeIds
    executions := s.executions.filter fun x => x.automationId ≠ aid
    logs := s.logs.filter fun l => l.executionId ∉ deadExecIds }

/-- Deleting one execution row: its log rows cascade
(`onDelete: "cascade"` on `automationExecutionLogs.executionId`). -/
def deleteExecution (s : Store) (eid : String) : Store :=
  { s with
    executions := s.executions.filter fun x => x.id ≠ eid
    logs := s.logs.filter fun l => l.executionId ≠ eid }

/-- Result of a store write: either it was applied, or it was rejected
with an error string (a foreign-key, unique-constraint or validation
failure).  The store accompanying an `err` result is unchanged. -/
inductive WriteResult where
  | applied
  | err (msg : String)
deriving Repr, DecidableEq

/-- Inserting a node row under the schema's constraints: the
`automationId` foreign key must resolve, and the insert is rejected when
it would violate the global `.unique()` on `nodeId` (line 354) or the
`nodeUniqueIdx` unique index on `(automationId, nodeId)` (lines 368-371).
A rejected insert leaves the store unchanged. -/
def insertNode (s : Store) (n : NodeRow) : WriteResult × Store :=
  if ¬ s.automations.any fun a => a.id = n.automationId then
    (.err "foreign key violation: automation_id", s)
  else if s.nodes.any fun m => m.nodeId = n.nodeId then
    (.err "unique violation: automation_nodes_node_id_unique", s)
  else if s.nodes.any fun m => m.automationId = n.automationId ∧ m.nodeId = n.nodeId then
    (.err "unique violation: automation_nodes_unique_idx", s)
  else
    (.applied, { s with nodes := s.nodes ++ [n] })

/-- The insert payload for `automations` (`insertAutomationSchema`):
`trigger` is a `notNull` column, so a payload missing it is rejected. -/
structure InsertAutomation where
  id : String
  channelId : Option String
  name : Option String
  trigger : Option String
  status : Option String
deriving Repr, DecidableEq

/-- Inserting an automation row under the schema's constraints: `name`
and `trigger` are `notNull` (lines 327-329), `status` defaults to
"inactive" (line 331).  Nothing about the automation's node set is
checked: the schema imposes no relationship between `automations` and
`automation_nodes` beyond the foreign key on the node side. -/
def insertAutomation (s : Store) (a : InsertAutomation) : WriteResult × Store :=
  match a.name, a.trigger with
  | some nm, some tr =>
      if s.automations.any fun b => b.id = a.id then
        (.err "unique violation: automations_pkey", s)
      else
        (.applied, { s with automations := s.automations ++
          [{ id := a.id, channelId := a.channelId, name := nm, trigger := tr,
             status := a.status.getD "inactive" }] })
  | none, _ => (.err "not-null violation: name", s)
  | _, none => (.err "not-null violation: trigger", s)

/-- Modelled from the spec: the graph store's `upsertEdge` operation is
not present in the repository source (only the schema is), so it is
taken from spec section 4.1: it "enforces the node-uniqueness and
edge-endpoint invariants at write time; violating writes fail with
ValidationError and leave stored state unchanged", the endpoint
invariant being that "source and target node-identifiers must exist
within the same automation" (section 3).  On the `edgeUniqueIdx` triple
`(automationId, sourceNodeId, targetNodeId)` an upsert replaces the
existing row. -/
def upsertEdge (s : Store) (e : EdgeRow) : WriteResult × Store :=
  if ¬ s.automations.any fun a => a.id = e.automationId then
    (.err "NotFound: automation", s)
  else if ¬ s.nodes.any fun n => n.automationId = e.automationId ∧ n.nodeId = e.sourceNodeId then
    (.err "ValidationError: source node not in automation", s)
  else if ¬ s.nodes.any fun n => n.automationId = e.automationId ∧ n.nodeId = e.targetNodeId then
    (.err "ValidationError: target node not in automation", s)
  else if s.edges.any fun d => d.automationId = e.automationId ∧
      d.sourceNodeId = e.sourceNodeId ∧ d.targetNodeId = e.targetNodeId then
    (.applied, { s with edges := s.edges.map fun d =>
      if d.automationId = e.automationId ∧ d.sourceNodeId = e.sourceNodeId ∧
         d.targetNodeId = e.targetNodeId then e else d })
  else
    (.applied, { s with edges := s.edges ++ [e] })

/-- The edge-endpoint invariant of spec section 3: every stored edge's
source and target node-identifiers exist as nodes of the edge's own
automation. -/
def Store.edgeEndpointsOk (s : Store) : Bool :=
  s.edges.all fun e =>
    (s.nodes.any fun n => n.automationId = e.automationId ∧ n.nodeId = e.sourceNodeId) &&
    (s.nodes.any fun n => n.automationId = e.automationId ∧ n.nodeId = e.targetNodeId)

/-- Node-identifier uniqueness per automation (spec section 3):
no two nodes of one automation share a `nodeId`. -/
def Store.nodeIdsUniquePerAutomation (s : Store) : Prop :=
  s.nodes.Pairwise fun m n => m.automationId = n.automationId → m.nodeId ≠ n.nodeId

/-- Whether some node of automation `aid` has type "trigger". -/
def Store.hasTriggerNode (s : Store) (aid : String) : Bool :=
  s.nodes.any fun n => n.automationId = aid ∧ n.type = "trigger"

/-!
The execution engine.  The repository source contains only the schema
rows for executions and their logs; the engine itself (spec sections
4.2-4.3) is not under src/, so it is modelled from the spec below.
-/

/-- An evaluator outcome, spec section 4.2: `advance` (the engine then
selects the successor along outgoing edges), `defer` with a resume
timestamp (delay nodes), or `fail` with an error. -/
inductive Outcome where
  | advance
  | defer (resumeAt : Nat)
  | fail (err : String)
deriving Repr, DecidableEq

/-- The graph of one automation, as loaded for a step. -/
structure Graph where
  nodes : List NodeRow
  edges : List EdgeRow
deriving Repr, DecidableEq

/-- The engine-visible state of one execution: the mutable execution
record together with its ordered log rows. -/
structure ExecState where
  status : String
  currentNodeId : Option String
  executionPath : List String
  resumeAt : Option Nat
  error : Option String
  logs : List LogRow
deriving Repr, DecidableEq

/-- Modelled from the spec: execution creation (section 4.3): "Initial
state on creation is `running`", current node the matched trigger node,
with an empty path and no logs - the trigger node is visited (logged and
appended to the path) by the first step. -/
def createExecution (triggerNodeId : String) : ExecState :=
  { status := "running", currentNodeId := some triggerNodeId,
    executionPath := [], resumeAt := none, error := none, logs := [] }

/-- A log row appended by the engine for execution-local reasoning;
the `id`/`executionId` columns are irrelevant here and left empty. -/
def mkLog (nodeId nodeType status : String) (err : Option String) : LogRow :=
  { id := "", executionId := "", nodeId := nodeId, nodeType := nodeType,
    status := status, error := err }

/-- Modelled from the spec: one engine step (section 4.3).  Only a
`running` execution advances; `completed` and `failed` are terminal and
`waiting` is left to the resume sweep.  The step looks up the current
node (a vanished node is a NotFound error, "reported, not retried, and
the execution is marked failed"), appends a `started` log entry and
records the visit on `executionPath`, runs the evaluator, appends a
`completed` or `failed` log entry, and then: on `advance` follows the
first outgoing edge, marking the execution `completed` when the node has
no outgoing edges (terminal); on `defer` persists `waiting` with the
resume timestamp (the same node is re-evaluated on resume); on `fail`
persists `failed` with the error text.  The evaluator receives the
current time so a delay node can defer before its resume time and
advance after it. -/
def step (g : Graph) (eval : Nat → NodeRow → Outcome) (now : Nat)
    (st : ExecState) : ExecState :=
  if st.status ≠ "running" then st
  else
    match st.currentNodeId with
    | none => { st with status := "failed", error := some "NotFound: no current node" }
    | some c =>
      match g.nodes.find? fun n => n.nodeId = c with
      | none => { st with status := "failed", error := some "NotFound: node" }
      | some node =>
        let path := st.executionPath ++ [c]
        let started := mkLog c node.type "started" none
        match eval now node with
        | .fail e =>
            { st with
              executionPath := path
              status := "failed"
              error := some e
              logs := st.logs ++ [started, mkLog c node.type "failed" (some e)] }
        | .defer t =>
            { st with
              executionPath := path
              status := "waiting"
              resumeAt := some t
              logs := st.logs ++ [started, mkLog c node.type "completed" none] }
        | .advance =>
            let done := st.logs ++ [started, mkLog c node.type "completed" none]
            match (g.edges.filter fun e => e.sourceNodeId = c).map EdgeRow.targetNodeId with
            | [] => { st with executionPath := path, status := "completed", logs := done }
            | next :: _ =>
                { st with
                  executionPath := path
                  currentNodeId := some next
                  status := "running"
                  logs := done }

/-- Modelled from the spec: the resume sweep (sections 4.3 and 8): a
`waiting` execution whose resume timestamp has passed transitions back
to `running`; resuming before the timestamp is a no-op. -/
def resumeExec (now : Nat) (st : ExecState) : ExecState :=
  if st.status = "waiting" ∧ st.resumeAt.getD 0 ≤ now then
    { st with status := "running", resumeAt := none }
  else st

/-- The path/log identity of spec sections 4.3 and 8: `executionPath`
is exactly the sequence of node-identifiers of the `started` log
entries, in order. -/
def ExecState.pathMatchesStartedLogs (st : ExecState) : Prop :=
  st.executionPath = (st.logs.filter fun l => l.status = "started").map LogRow.nodeId

/-- The status domain of spec section 3. -/
def ExecState.statusOk (st : ExecState) : Prop :=
  st.status = "running" ∨ st.status = "waiting" ∨
  st.status = "completed" ∨ st.status = "failed"

/-!
The channels controller (src/server/controllers/channels.controller.ts).
`storage` is the list-backed store over the `channels` table of the
schema; `updateChannel` patches the row with the matching id and returns
it, or returns nothing when no row matches.
-/

/-- One row of the `channels` table (schema lines 185-201).  `isActive`
defaults to true (line 194), `healthStatus` to "unknown". -/
structure Channel where
  id : String
  name : String
  phoneNumberId : String
  accessToken : String
  phoneNumber : Option String
  isActive : Bool
  healthStatus : String
deriving Repr, DecidableEq

/-- A validated `insertChannelSchema` payload.  `isActive` is optional
in the insert schema (the column has a database default of true);
`name`, `phoneNumberId` and `accessToken` are required. -/
structure InsertChannel where
  name : String
  phoneNumberId : String
  accessToken : String
  phoneNumber : Option String
  isActive : Option Bool
deriving Repr, DecidableEq

/-- A partial update of a channel row, as passed to
`storage.updateChannel`; only the fields the controllers touch. -/
structure ChannelPatch where
  isActive : Option Bool
  healthStatus : Option String
deriving Repr, DecidableEq

/-- The patch touching nothing. -/
def ChannelPatch.empty : ChannelPatch := { isActive := none, healthStatus := none }

/-- The patch the controllers use to deactivate a channel
(`{ isActive: false }`). -/
def ChannelPatch.deactivate : ChannelPatch := { isActive := some false, healthStatus := none }

/-- Applying a patch to a row: absent fields keep their value. -/
def Channel.apply (c : Channel) (p : ChannelPatch) : Channel :=
  { c with
    isActive := p.isActive.getD c.isActive
    healthStatus := p.healthStatus.getD c.healthStatus }

/-- `storage.updateChannel`: patch the row with the given id; the second
component is the updated row, or none when the id matches no row. -/
def storageUpdateChannel (chs : List Channel) (id : String) (p : ChannelPatch) :
    List Channel × Option Channel :=
  (chs.map fun c => if c.id = id then c.apply p else c,
   (chs.find? fun c => c.id = id).map fun c => c.apply p)

/-- The deactivation loop of `createChannel` (channels.controller.ts
lines 24-31): when the validated payload has `isActive` truthy
(explicitly true), every currently active channel is deactivated via
`storage.updateChannel(id, { isActive: false })`; otherwise the list is
untouched. -/
def createChannelPre (chs : List Channel) (body : InsertChannel) : List Channel :=
  if body.isActive = some true then
    chs.map fun c => if c.isActive then c.apply ChannelPatch.deactivate else c
  else chs

/-- The row `storage.createChannel` stores for a validated payload: the
database default makes the channel active when `isActive` was omitted
(schema line 194), and `healthStatus` starts at its default. -/
def newChannelRow (body : InsertChannel) (newId : String) : Channel :=
  { id := newId
    name := body.name
    phoneNumberId := body.phoneNumberId
    accessToken := body.accessToken
    phoneNumber := body.phoneNumber
    isActive := body.isActive.getD true
    healthStatus := "unknown" }

/-- The patch applied by the post-creation health check
(channels.controller.ts lines 37-91): the Graph API call outcome
(`health`) determines a patch of `healthStatus` only - never of
`isActive`; `none` models the caught-exception path, which patches
nothing. -/
def healthPatchOf : Option Bool → Option ChannelPatch
  | some true => some { isActive := none, healthStatus := some "healthy" }
  | some false => some { isActive := none, healthStatus := some "error" }
  | none => none

/-- `createChannel` (channels.controller.ts lines 20-96): deactivate
all active channels when the payload is active, store the new row, then
apply the health-check patch to it.  Returns the stored list and the
created channel's row as returned to the client. -/
def createChannel (chs : List Channel) (body : InsertChannel) (newId : String)
    (health : Option Bool) : List Channel × Channel :=
  match healthPatchOf health with
  | some q =>
      ((storageUpdateChannel (createChannelPre chs body ++ [newChannelRow body newId])
          newId q).1,
       (newChannelRow body newId).apply q)
  | none =>
      (createChannelPre chs body ++ [newChannelRow body newId],
       newChannelRow body newId)

/-- The deactivation loop of `updateChannel` (channels.controller.ts
lines 102-109): when the request body sets `isActive` to true, every
other active channel is deactivated. -/
def updateChannelPre (chs : List Channel) (id : String) (body : ChannelPatch) :
    List Channel :=
  if body.isActive = some true then
    chs.map fun c => if c.id ≠ id ∧ c.isActive then c.apply ChannelPatch.deactivate else c
  else chs

/-- `updateChannel` (channels.controller.ts lines 98-116): run the
deactivation loop, then patch the target row.  The second component is
the patched row (the controller answers 404 when it is none - the
deactivations have already been applied by then). -/
def updateChannel (chs : List Channel) (id : String) (body : ChannelPatch) :
    List Channel × Option Channel :=
  storageUpdateChannel (updateChannelPre chs id body) id body

/-!
The contacts controller (src/server/controllers/contacts.controller.ts).
-/

/-- One row of the `contacts` table (schema lines 75-103).  `name` and
`phone` are `notNull`; `channelId` is a nullable foreign key. -/
structure ContactRow where
  id : String
  channelId : Option String
  name : String
  phone : String
  email : Option String
deriving Repr, DecidableEq

/-- An incoming contact object before validation: the fields
`insertContactSchema` cares about, each possibly absent. -/
structure ContactBody where
  channelId : Option String
  name : Option String
  phone : Option String
  email : Option String
deriving Repr, DecidableEq

/-- A contact payload accepted by `insertContactSchema.parse`: `name`
and `phone` are required (they are `notNull` columns the insert schema
does not omit), the rest optional. -/
structure ValidContact where
  channelId : Option String
  name : String
  phone : String
  email : Option String
deriving Repr, DecidableEq

/-- `insertContactSchema.parse`: succeeds exactly when the required
`name` and `phone` fields are present (a ZodError is thrown
otherwise). -/
def parseContact (b : ContactBody) : Option ValidContact :=
  match b.name, b.phone with
  | some nm, some ph => some { channelId := b.channelId, name := nm, phone := ph, email := b.email }
  | _, _ => none

/-- `storage.getActiveChannel`: the active channel row, when one
exists. -/
def getActiveChannel (chs : List Channel) : Option Channel :=
  chs.find? fun c => c.isActive

/-- `storage.getContactsByChannel`: the contacts of one channel. -/
def getContactsByChannel (cts : List ContactRow) (cid : String) : List ContactRow :=
  cts.filter fun c => c.channelId = some cid

/-- The channel-resolution step shared by `createContact` and
`importContacts`: the explicitly requested channel id when present,
otherwise the active channel's id when one exists. -/
def resolveChannelId (chs : List Channel) (requested : Option String) : Option String :=
  match requested with
  | some cid => some cid
  | none => (getActiveChannel chs).map Channel.id

/-- The contact set used for the duplicate check: the resolved
channel's contacts, or all contacts when no channel resolves. -/
def duplicateScope (cts : List ContactRow) (channelId : Option String) : List ContactRow :=
  match channelId with
  | some cid => getContactsByChannel cts cid
  | none => cts

/-- `createContact` (contacts.controller.ts lines 136-168): parse the
body (a ZodError propagates, modelled as error 400), resolve the
channel from the query string or the active channel, reject with a 409
`AppError` when the resolved contact set already holds the requested
phone number, and otherwise create the contact with the resolved
channel id.  The second component is the stored contact list after the
call. -/
def createContact (chs : List Channel) (cts : List ContactRow)
    (queryChannelId : Option String) (body : ContactBody) (newId : String) :
    Except Nat ContactRow × List ContactRow :=
  match parseContact body with
  | none => (.error 400, cts)
  | some v =>
    let channelId := resolveChannelId chs queryChannelId
    let existing := duplicateScope cts channelId
    if existing.any fun c => c.phone = v.phone then
      (.error 409, cts)
    else
      let newC : ContactRow :=
        { id := newId, channelId := channelId, name := v.name, phone := v.phone,
          email := v.email }
      (.ok newC, cts ++ [newC])

/-- Whether the entry's phone (when present) is already a known phone:
`existingPhones.has(contact.phone)` in the source. -/
def phoneSeen (phones : List String) (c : ContactBody) : Bool :=
  match c.phone with
  | some p => phones.contains p
  | none => false

/-- The loop state of `importContacts`: the phone set (seeded with the
existing contacts' phones, then extended with each created contact's
phone), the created rows, and the duplicate/failure counters. -/
structure ImportState where
  phones : List String
  createdRows : List ContactRow
  dups : Nat
  fails : Nat
deriving Repr, DecidableEq

/-- One iteration of the `importContacts` loop (lines 243-267): an
entry whose phone is already in the phone set is counted as a
duplicate; otherwise it is validated (a validation error is counted as
a failure and - notably - its phone is not added to the set); a
validated entry is created and its phone added to the set. -/
def importStep (channelId : Option String) (mkId : Nat → String)
    (st : ImportState) (c : ContactBody) : ImportState :=
  if phoneSeen st.phones c then
    { st with dups := st.dups + 1 }
  else
    match parseContact { c with channelId := channelId } with
    | none => { st with fails := st.fails + 1 }
    | some v =>
      let row : ContactRow :=
        { id := mkId st.createdRows.length, channelId := v.channelId,
          name := v.name, phone := v.phone, email := v.email }
      { st with
        phones := st.phones ++ [row.phone]
        createdRows := st.createdRows ++ [row] }

/-- The counters `importContacts` reports. -/
structure ImportCounts where
  created : Nat
  duplicates : Nat
  failed : Nat
  total : Nat
deriving Repr, DecidableEq

/-- `importContacts` (contacts.controller.ts lines 214-281), for a body
whose `contacts` field is an array: resolve the channel (body, then
query, then active channel), seed the phone set from the existing
contacts of that scope, run the loop, and report
`created`/`duplicates`/`failed`/`total`.  Returns the counters, the
created rows and the stored contact list after the call. -/
def importContacts (chs : List Channel) (cts : List ContactRow)
    (bodyChannelId queryChannelId : Option String) (input : List ContactBody)
    (mkId : Nat → String) : ImportCounts × List ContactRow × List ContactRow :=
  let channelId := resolveChannelId chs (bodyChannelId <|> queryChannelId)
  let existing := duplicateScope cts channelId
  let final := input.foldl (importStep channelId mkId)
    { phones := existing.map ContactRow.phone, createdRows := [], dups := 0, fails := 0 }
  ({ created := final.createdRows.length, duplicates := final.dups,
     failed := final.fails, total := input.length },
   final.createdRows, cts ++ final.createdRows)

/-- The loop invariant of `importContacts` relative to the initial
phone set: the running phone set is the initial one extended by the
phones of the created rows, those phones are pairwise distinct, and
none of them was initially present. -/
def ImportInv (phones0 : List String) (st : ImportState) : Prop :=
  st.phones = phones0 ++ st.createdRows.map ContactRow.phone ∧
  (st.createdRows.map ContactRow.phone).Nodup ∧
  ∀ p ∈ st.createdRows.map ContactRow.phone, p ∉ phones0

/-- The `importContacts` loop state reached after processing a prefix
of the input: the seed state (the duplicate-check scope's phones,
nothing created, zero counters) folded through the prefix with the same
resolved channel id `importContacts` uses. -/
def importStateAfter (chs : List Channel) (cts : List ContactRow)
    (bodyChannelId queryChannelId : Option String) (input1 : List ContactBody)
    (mkId : Nat → String) : ImportState :=
  input1.foldl
    (importStep (resolveChannelId chs (bodyChannelId <|> queryChannelId)) mkId)
    { phones := (duplicateScope cts (resolveChannelId chs (bodyChannelId <|> queryChannelId))).map
        ContactRow.phone
      createdRows := []
      dups := 0
      fails := 0 }

/-!
Concrete instances used by counterexamples, reachability demonstrations
and witnesses.
-/

/-- A stored automation. -/
def autoA : AutomationRow :=
  { id := "a1", channelId := none, name := "welcome", trigger := "keyword",
    status := "active" }

/-- A trigger node of `autoA`. -/
def nodeT : NodeRow :=
  { id := "r1", automationId := "a1", nodeId := "n1", type := "trigger",
    subtype := some "keyword_match" }

/-- An action node of `autoA`. -/
def nodeAct : NodeRow :=
  { id := "r2", automationId := "a1", nodeId := "n2", type := "action",
    subtype := some "send_message" }

/-- An edge of `autoA` from its trigger node to its action node. -/
def edgeTA : EdgeRow :=
  { id := "e1", automationId := "a1", sourceNodeId := "n1", targetNodeId := "n2",
    animated := false }

/-- A finished execution of `autoA`. -/
def execX : ExecutionRow :=
  { id := "x1", automationId := "a1", contactId := none, status := "completed",
    currentNodeId := none, executionPath := ["n1", "n2"], result := none,
    error := none }

/-- A log entry of `execX`. -/
def logL : LogRow :=
  { id := "l1", executionId := "x1", nodeId := "n1", nodeType := "trigger",
    status := "started", error := none }

/-- A store holding `autoA` with its graph, one execution and one log
entry; it satisfies every schema constraint. -/
def storeA : Store :=
  { automations := [autoA], nodes := [nodeT, nodeAct], edges := [edgeTA],
    executions := [execX], logs := [logL] }

/-- A store holding one automation and nothing else - in particular no
node of type trigger. -/
def storeNoTrigger : Store :=
  { automations := [autoA], nodes := [], edges := [], executions := [], logs := [] }

/-- A one-node graph: a single delay node with no outgoing edges. -/
def gDemo : Graph :=
  { nodes := [{ id := "r9", automationId := "a1", nodeId := "d1", type := "delay",
                subtype := some "wait" }],
    edges := [] }

/-- A demonstration evaluator: the delay node defers to time 5 when
evaluated earlier, and advances once its resume time has passed. -/
def evDemo : Nat → NodeRow → Outcome := fun now n =>
  if n.type = "delay" ∧ now < 5 then .defer 5 else .advance

/-- An active and an inactive stored channel. -/
def chActive : Channel :=
  { id := "c1", name := "main", phoneNumberId := "p1", accessToken := "t1",
    phoneNumber := none, isActive := true, healthStatus := "unknown" }

/-- See `chActive`. -/
def chIdle : Channel :=
  { id := "c2", name := "backup", phoneNumberId := "p2", accessToken := "t2",
    phoneNumber := none, isActive := false, healthStatus := "unknown" }

/-- A validated channel payload requesting activation. -/
def bodyNewActive : InsertChannel :=
  { name := "fresh", phoneNumberId := "p3", accessToken := "t3",
    phoneNumber := none, isActive := some true }

/-- A stored contact with phone 111 on channel c1. -/
def contact111 : ContactRow :=
  { id := "k1", channelId := some "c1", name := "Ada", phone := "111",
    email := none }

/-- A request body reusing phone 111. -/
def bodyDup111 : ContactBody :=
  { channelId := none, name := some "Eve", phone := some "111", email := none }

/-- A request body with the fresh phone 222. -/
def bodyNew222 : ContactBody :=
  { channelId := none, name := some "Bob", phone := some "222", email := none }

/-- An import entry that fails validation (no name) but carries phone
111. -/
def importBad111 : ContactBody :=
  { channelId := none, name := none, phone := some "111", email := none }

/-- A valid import entry with the same phone 111. -/
def importGood111 : ContactBody :=
  { channelId := none, name := some "Bea", phone := some "111", email := none }

/-- A deterministic id generator for import demonstrations. -/
def mkIdDemo : Nat → String := fun k => "id" ++ toString k

/-- A concretely terminal (completed) execution state. -/
def execDone : ExecState :=
  { status := "completed"
    currentNodeId := none
    executionPath := ["d1"]
    resumeAt := none
    error := none
    logs := [] }

/-!
Theorems for the claims.
-/

/-- C5: deleting an Automation deletes all of its Nodes and all of its
Edges (strong cascading ownership): after the delete, no node or edge
referencing that automation remains in the store. -/
theorem deleteAutomation_removes_nodes_and_edges (s : Store) (aid : String) :
    ((deleteAutomation s aid).nodes.all fun n => n.automationId != aid) = true ∧
    ((deleteAutomation s aid).edges.all fun e => e.automationId != aid) = true := by
  constructor <;>
    simp only [deleteAutomation, List.all_eq_true, List.mem_filter] <;>
    intro r hr <;>
    simp_all

/-- C1 counterexample: in the well-formed store `storeA`, deleting
automation a1 does not leave the existing execution's log entries
unchanged - the cascade on `automationExecutions.automationId` deletes
the execution x1 and, through it, its log entry l1. -/
theorem deleteAutomation_erases_execution_logs :
    storeA.wf = true ∧ storeA.logs = [logL] ∧
    (deleteAutomation storeA "a1").logs = [] ∧
    (deleteAutomation storeA "a1").logs ≠ storeA.logs := by
  decide

/-- C1 amended: deleting an Automation removes its Nodes and Edges and
also its Executions together with their log entries (the schema
cascades `automationExecutions.automationId` and
`automationExecutionLogs.executionId`); a log entry survives the delete
exactly when its owning execution does not belong to the deleted
automation, and deleting an Execution directly removes exactly that
execution's log entries. -/
theorem deleteAutomation_cascade_scope (s : Store) (aid eid : String) :
    (∀ n ∈ (deleteAutomation s aid).nodes, n.automationId ≠ aid) ∧
    (∀ e ∈ (deleteAutomation s aid).edges, e.automationId ≠ aid) ∧
    (∀ x ∈ (deleteAutomation s aid).executions, x.automationId ≠ aid) ∧
    (∀ l ∈ s.logs, ∀ x ∈ s.executions, x.id = l.executionId → x.automationId = aid →
      l ∉ (deleteAutomation s aid).logs) ∧
    (∀ l ∈ s.logs, (∀ x ∈ s.executions, x.id = l.executionId → x.automationId ≠ aid) →
      l ∈ (deleteAutomation s aid).logs) ∧
    (∀ l ∈ s.logs, (l ∈ (deleteExecution s eid).logs ↔ l.executionId ≠ eid)) := by
  refine ⟨?_, ?_, ?_, ?_, ?_, ?_⟩
  · intro r hr; simp only [deleteAutomation, List.mem_filter] at hr; simp_all
  · intro r hr; simp only [deleteAutomation, List.mem_filter] at hr; simp_all
  · intro r hr; simp only [deleteAutomation, List.mem_filter] at hr; simp_all
  · intro l hl x hx hid haid hmem
    simp only [deleteAutomation, List.mem_filter, List.mem_map] at hmem
    rcases hmem with ⟨-, hpred⟩
    simp only [decide_eq_true_eq, List.mem_map, List.mem_filter] at hpred
    exact hpred ⟨x, ⟨hx, by simp [haid]⟩, hid⟩
  · intro l hl hothers
    simp only [deleteAutomation, List.mem_filter]
    refine ⟨hl, ?_⟩
    simp only [decide_eq_true_eq, List.mem_map, List.mem_filter]
    rintro ⟨x, ⟨hx, hxa⟩, hid⟩
    exact hothers x hx hid (by simpa using hxa)
  · intro l hl
    constructor
    · intro hmem
      simp only [deleteExecution, List.mem_filter] at hmem
      simpa using hmem.2
    · intro hne
      simp only [deleteExecution, List.mem_filter]
      exact ⟨hl, by simpa using hne⟩

/-- C1 amended, witness: the general cascade-scope theorem applied to
the concrete store `storeA`: l1 is deleted with automation a1, survives
the deletion of an unrelated automation, and is removed by deleting its
own execution. -/
theorem deleteAutomation_cascade_scope_witness :
    logL ∉ (deleteAutomation storeA "a1").logs ∧
    logL ∈ (deleteAutomation storeA "other").logs ∧
    logL ∉ (deleteExecution storeA "x1").logs := by
  have h1 := (deleteAutomation_cascade_scope storeA "a1" "x1").2.2.2.1
    logL (by decide) execX (by decide) (by decide) (by decide)
  have h2 := (deleteAutomation_cascade_scope storeA "other" "x1").2.2.2.2.1
    logL (by decide) (by decide)
  have h3 := ((deleteAutomation_cascade_scope storeA "a1" "x1").2.2.2.2.2
    logL (by decide)).not.mpr (by decide)
  exact ⟨h1, h2, by simpa using h3⟩

/-- C7 counterexample: the store `storeNoTrigger` satisfies every
constraint the schema declares, holds automation a1, and contains no
node at all - in particular no node of type trigger - so the schema
does not make "every Automation has a trigger node" an invariant. -/
theorem automation_without_trigger_node_is_storable :
    storeNoTrigger.wf = true ∧
    autoA ∈ storeNoTrigger.automations ∧
    storeNoTrigger.hasTriggerNode "a1" = false := by
  decide

/-- C7 amended: what the schema does require is the automation-level
trigger descriptor: `automations.trigger` is notNull, so an automation
payload without it is rejected and the store is unchanged, and an
accepted payload always carried one; no node of type trigger is
required to exist. -/
theorem automations_trigger_field_not_null (s : Store) (a : InsertAutomation) :
    ((insertAutomation s a).1 = .applied → a.trigger ≠ none) ∧
    (a.trigger = none → (insertAutomation s a).1 ≠ .applied ∧ (insertAutomation s a).2 = s) := by
  constructor
  · intro happ
    intro htr
    rcases hnm : a.name with - | nm <;> simp [insertAutomation, hnm, htr] at happ
  · intro htr
    rcases hnm : a.name with - | nm <;> simp [insertAutomation, hnm, htr]

/-- C7 amended, witness: a payload missing `trigger` is rejected on the
concrete store `storeA` and leaves it unchanged. -/
theorem automations_trigger_field_not_null_witness :
    (insertAutomation storeA
      { id := "a9", channelId := none, name := some "x", trigger := none,
        status := none }).1 ≠ .applied ∧
    (insertAutomation storeA
      { id := "a9", channelId := none, name := some "x", trigger := none,
        status := none }).2 = storeA :=
  (automations_trigger_field_not_null storeA
    { id := "a9", channelId := none, name := some "x", trigger := none,
      status := none }).2 rfl

/-- C6: node-identifiers are unique per automation and a write that
would create a duplicate fails leaving the stored node set unchanged:
`insertNode` preserves per-automation uniqueness of `nodeId` (it also
enforces the stronger global uniqueness of line 354), and when a stored
node of the same automation already carries the requested `nodeId`, the
insert is rejected with the store unchanged. -/
theorem insertNode_nodeId_unique_per_automation (s : Store) (n : NodeRow)
    (h : s.nodeIdsUniquePerAutomation) :
    (insertNode s n).2.nodeIdsUniquePerAutomation ∧
    ((∃ m ∈ s.nodes, m.automationId = n.automationId ∧ m.nodeId = n.nodeId) →
      (insertNode s n).1 ≠ .applied ∧ (insertNode s n).2 = s) := by
  constructor
  · unfold insertNode
    split
    · exact h
    · split
      · exact h
      · split
        · exact h
        · rename_i hfk hglob hdup
          simp only [Store.nodeIdsUniquePerAutomation] at h ⊢
          rw [List.pairwise_append]
          refine ⟨h, List.pairwise_singleton _ _, ?_⟩
          intro m hm b hb
          simp only [List.mem_singleton] at hb
          subst hb
          intro _ hEq
          exact hglob (by simp only [List.any_eq_true, decide_eq_true_eq]; exact ⟨m, hm, hEq⟩)
  · rintro ⟨m, hm, hma, hmid⟩
    have hglob : (s.nodes.any fun k => k.nodeId = n.nodeId) = true := by
      simp only [List.any_eq_true, decide_eq_true_eq]
      exact ⟨m, hm, hmid⟩
    unfold insertNode
    simp only [hglob]
    split
    · exact ⟨by simp, rfl⟩
    · exact ⟨by simp, rfl⟩

/-- C6 witness: inserting a second node with nodeId n1 into automation
a1 of `storeA` is rejected and leaves the store unchanged. -/
theorem insertNode_nodeId_unique_per_automation_witness :
    (insertNode storeA
      { id := "r9", automationId := "a1", nodeId := "n1", type := "action",
        subtype := none }).1 ≠ .applied ∧
    (insertNode storeA
      { id := "r9", automationId := "a1", nodeId := "n1", type := "action",
        subtype := none }).2 = storeA :=
  (insertNode_nodeId_unique_per_automation storeA
    { id := "r9", automationId := "a1", nodeId := "n1", type := "action",
      subtype := none }
    (by simp [Store.nodeIdsUniquePerAutomation, storeA, List.pairwise_cons]; decide)).2
    ⟨nodeT, by decide, by decide, by decide⟩

/-- C3: every stored Edge's source and target node-identifiers exist as
nodes of the Edge's own Automation, and a write violating this fails
leaving the stored edge set unchanged: `upsertEdge` (modelled from spec
section 4.1, the graph-store write code being absent from src/)
preserves the endpoint invariant, and when an endpoint does not exist
among the automation's nodes the write is rejected with the store
unchanged. -/
theorem upsertEdge_endpoints_same_automation (s : Store) (e : EdgeRow)
    (h : s.edgeEndpointsOk = true) :
    (upsertEdge s e).2.edgeEndpointsOk = true ∧
    (((¬ ∃ n ∈ s.nodes, n.automationId = e.automationId ∧ n.nodeId = e.sourceNodeId) ∨
      (¬ ∃ n ∈ s.nodes, n.automationId = e.automationId ∧ n.nodeId = e.targetNodeId)) →
      (upsertEdge s e).1 ≠ .applied ∧ (upsertEdge s e).2 = s) := by
  constructor
  · unfold upsertEdge
    split
    · exact h
    · split
      · exact h
      · split
        · exact h
        · rename_i hfk hsrc htgt
          rw [not_not] at hsrc htgt
          split
          · simp only [Store.edgeEndpointsOk, List.all_eq_true] at h ⊢
            intro d hd
            simp only [List.mem_map] at hd
            rcases hd with ⟨d0, hd0, hfd⟩
            by_cases hc : d0.automationId = e.automationId ∧
                d0.sourceNodeId = e.sourceNodeId ∧ d0.targetNodeId = e.targetNodeId
            · rw [if_pos hc] at hfd
              subst hfd
              simp only [Bool.and_eq_true]
              exact ⟨hsrc, htgt⟩
            · rw [if_neg hc] at hfd
              subst hfd
              exact h d0 hd0
          · simp only [Store.edgeEndpointsOk, List.all_eq_true] at h ⊢
            intro d hd
            rcases List.mem_append.mp hd with hold | hnew
            · exact h d hold
            · simp only [List.mem_singleton] at hnew
              subst hnew
              simp only [Bool.and_eq_true]
              exact ⟨hsrc, htgt⟩
  · intro hviol
    unfold upsertEdge
    split
    · exact ⟨by simp, rfl⟩
    · split
      · exact ⟨by simp, rfl⟩
      · split
        · exact ⟨by simp, rfl⟩
        · rename_i hfk hsrc htgt
          rw [not_not] at hsrc htgt
          simp only [List.any_eq_true, decide_eq_true_eq] at hsrc htgt
          rcases hviol with hv | hv
          · exact absurd (by rcases hsrc with ⟨n, hn, h1, h2⟩; exact ⟨n, hn, h1, h2⟩) hv
          · exact absurd (by rcases htgt with ⟨n, hn, h1, h2⟩; exact ⟨n, hn, h1, h2⟩) hv

/-- C3 witness: on `storeA` (whose edge set satisfies the endpoint
invariant) an edge whose target node-identifier belongs to no node of
automation a1 is rejected and the store is unchanged, while the
invariant also survives the attempt. -/
theorem upsertEdge_endpoints_same_automation_witness :
    (upsertEdge storeA
      { id := "e9", automationId := "a1", sourceNodeId := "n1",
        targetNodeId := "ghost", animated := false }).1 ≠ .applied ∧
    (upsertEdge storeA
      { id := "e9", automationId := "a1", sourceNodeId := "n1",
        targetNodeId := "ghost", animated := false }).2 = storeA :=
  (upsertEdge_endpoints_same_automation storeA
    { id := "e9", automationId := "a1", sourceNodeId := "n1",
      targetNodeId := "ghost", animated := false } (by decide)).2
    (Or.inr (by decide))

/-- C2: the executionPath is exactly the sequence of node-identifiers
of the started log entries, in visitation order (modelled from spec
sections 4.3 and 8; the engine is absent from src/): the identity holds
at execution creation and is preserved by every engine step and by the
resume sweep. -/
theorem executionPath_matches_started_logs (g : Graph)
    (ev : Nat → NodeRow → Outcome) (now : Nat) (t : String) (st : ExecState)
    (h : st.pathMatchesStartedLogs) :
    (createExecution t).pathMatchesStartedLogs ∧
    (step g ev now st).pathMatchesStartedLogs ∧
    (resumeExec now st).pathMatchesStartedLogs := by
  refine ⟨rfl, ?_, ?_⟩
  · unfold step
    split
    · exact h
    · split
      · simpa [ExecState.pathMatchesStartedLogs] using h
      · split
        · simpa [ExecState.pathMatchesStartedLogs] using h
        · rename_i hrun c node hc hnode
          simp only [ExecState.pathMatchesStartedLogs] at h
          split
          · simp [ExecState.pathMatchesStartedLogs, mkLog, h]
          · simp [ExecState.pathMatchesStartedLogs, mkLog, h]
          · split
            · simp [ExecState.pathMatchesStartedLogs, mkLog, h]
            · simp [ExecState.pathMatchesStartedLogs, mkLog, h]
  · unfold resumeExec
    split
    · simpa [ExecState.pathMatchesStartedLogs] using h
    · exact h

/-- C2 witness: the identity holds along a concrete run of the
one-delay-node demonstration graph. -/
theorem executionPath_matches_started_logs_witness :
    (resumeExec 10 (step gDemo evDemo 0 (createExecution "d1"))).pathMatchesStartedLogs := by
  have h0 : (createExecution "d1").pathMatchesStartedLogs := rfl
  have h1 := (executionPath_matches_started_logs gDemo evDemo 0 "d1"
    (createExecution "d1") h0).2.1
  exact (executionPath_matches_started_logs gDemo evDemo 10 "d1"
    (step gDemo evDemo 0 (createExecution "d1")) h1).2.2

/-- C4: an execution's status is always one of running, waiting,
completed, failed (modelled from spec sections 3 and 4.3; the engine is
absent from src/): creation starts at running, step and resume preserve
the four-value domain, completed and failed are terminal for both
operations, and waiting is reachable - on the demonstration graph a
delay node moves a running execution to waiting and the resume sweep
moves it back to running. -/
theorem execution_status_machine (g : Graph) (ev : Nat → NodeRow → Outcome)
    (now : Nat) (t : String) (st : ExecState) (h : st.statusOk) :
    (createExecution t).status = "running" ∧
    (step g ev now st).statusOk ∧
    (resumeExec now st).statusOk ∧
    (st.status = "completed" ∨ st.status = "failed" →
      step g ev now st = st ∧ resumeExec now st = st) ∧
    (step gDemo evDemo 0 (createExecution "d1")).status = "waiting" ∧
    (resumeExec 10 (step gDemo evDemo 0 (createExecution "d1"))).status = "running" := by
  refine ⟨rfl, ?_, ?_, ?_, by decide, by decide⟩
  · unfold step
    split
    · exact h
    · split
      · simp [ExecState.statusOk]
      · split
        · simp [ExecState.statusOk]
        · split
          · simp [ExecState.statusOk]
          · simp [ExecState.statusOk]
          · split
            · simp [ExecState.statusOk]
            · simp [ExecState.statusOk]
  · unfold resumeExec
    split
    · simp [ExecState.statusOk]
    · exact h
  · intro hterm
    have hne : st.status ≠ "running" := by
      rcases hterm with h1 | h1 <;> simp [h1]
    have hnw : ¬ (st.status = "waiting" ∧ st.resumeAt.getD 0 ≤ now) := by
      rcases hterm with h1 | h1 <;> simp [h1]
    constructor
    · unfold step
      rw [if_pos hne]
    · unfold resumeExec
      rw [if_neg hnw]

/-- C4 witness: the status machine applied to the demonstration run and
to a concretely terminal execution. -/
theorem execution_status_machine_witness :
    (step gDemo evDemo 0 (createExecution "d1")).status = "waiting" ∧
    (resumeExec 10 (step gDemo evDemo 0 (createExecution "d1"))).status = "running" ∧
    step gDemo evDemo 0 execDone = execDone := by
  have h := execution_status_machine gDemo evDemo 0 "d1" execDone
    (by simp [ExecState.statusOk, execDone])
  exact ⟨h.2.2.2.2.1, h.2.2.2.2.2, (h.2.2.2.1 (Or.inl rfl)).1⟩


/-- Patching never changes a channel's id. -/
theorem Channel.apply_id (d : Channel) (q : ChannelPatch) : (d.apply q).id = d.id := rfl

/-- A patch that does not mention `isActive` preserves it. -/
theorem Channel.apply_isActive_of_none (d : Channel) (q : ChannelPatch)
    (hq : q.isActive = none) : (d.apply q).isActive = d.isActive := by
  simp [Channel.apply, hq]

/-- Every patch the health check can produce leaves `isActive` alone. -/
theorem healthPatchOf_isActive_none (h : Option Bool) (q : ChannelPatch)
    (hh : healthPatchOf h = some q) : q.isActive = none := by
  rcases h with - | b
  · simp [healthPatchOf] at hh
  · cases b <;> simp [healthPatchOf] at hh <;> rw [← hh]

/-- After the `createChannel` deactivation loop runs (active payload),
no channel of the prior list is active. -/
theorem createChannelPre_inactive (chs : List Channel) (body : InsertChannel)
    (hact : body.isActive = some true) :
    ∀ c ∈ createChannelPre chs body, c.isActive = false := by
  intro c hc
  rw [createChannelPre, if_pos hact] at hc
  rcases List.mem_map.mp hc with ⟨d, hd, rfl⟩
  by_cases hdi : d.isActive
  · simp [hdi, Channel.apply, ChannelPatch.deactivate]
  · simp only [if_neg hdi]
    exact Bool.of_not_eq_true hdi

/-- The deactivation loop preserves the set of channel ids. -/
theorem createChannelPre_mem_ids (chs : List Channel) (body : InsertChannel) :
    ∀ c ∈ createChannelPre chs body, c.id ∈ chs.map Channel.id := by
  intro c hc
  rw [createChannelPre] at hc
  split at hc
  · rcases List.mem_map.mp hc with ⟨d, hd, rfl⟩
    by_cases hdi : d.isActive
    · simp only [if_pos hdi, Channel.apply_id]
      exact List.mem_map.mpr ⟨d, hd, rfl⟩
    · simp only [if_neg hdi]
      exact List.mem_map.mpr ⟨d, hd, rfl⟩
  · exact List.mem_map.mpr ⟨c, hc, rfl⟩

/-- In the list `createChannel` stores before the health check, exactly
the new row is active. -/
theorem createChannel_base_active_iff (chs : List Channel) (body : InsertChannel)
    (newId : String) (hact : body.isActive = some true)
    (hfresh : newId ∉ chs.map Channel.id) :
    ∀ c ∈ createChannelPre chs body ++ [newChannelRow body newId],
      (c.isActive = true ↔ c.id = newId) := by
  intro c hc
  rcases List.mem_append.mp hc with hold | hnew
  · constructor
    · intro hca
      rw [createChannelPre_inactive chs body hact c hold] at hca
      exact absurd hca (by simp)
    · intro hcid
      have hmem := createChannelPre_mem_ids chs body c hold
      rw [hcid] at hmem
      exact absurd hmem hfresh
  · rw [List.mem_singleton.mp hnew]
    constructor
    · intro _; rfl
    · intro _; simp [newChannelRow, hact]

/-- An `isActive`-silent storage update preserves the
exactly-one-active characterization. -/
theorem storageUpdate_preserves_active_iff (l : List Channel) (i j : String)
    (q : ChannelPatch) (hq : q.isActive = none)
    (h : ∀ c ∈ l, (c.isActive = true ↔ c.id = j)) :
    ∀ c ∈ (storageUpdateChannel l i q).1, (c.isActive = true ↔ c.id = j) := by
  intro c hc
  rcases List.mem_map.mp hc with ⟨d, hd, rfl⟩
  by_cases hdid : d.id = i
  · rw [if_pos hdid, Channel.apply_isActive_of_none d q hq, Channel.apply_id]
    exact h d hd
  · rw [if_neg hdid]
    exact h d hd

/-- C8: starting from any state (in particular one with at most one
active channel), `createChannel` with isActive true and `updateChannel`
setting isActive to true each leave exactly the created/updated channel
active: it is active in the result and every other channel - in
particular every previously active one - is inactive. -/
theorem at_most_one_active_channel (chs : List Channel) (body : InsertChannel)
    (newId : String) (health : Option Bool) (uid : String) (p : ChannelPatch)
    (hnodup : (chs.map Channel.id).Nodup)
    (hatmost : (chs.filter fun c => c.isActive).length ≤ 1)
    (hfresh : newId ∉ chs.map Channel.id)
    (hmem : uid ∈ chs.map Channel.id) :
    (body.isActive = some true →
      (∀ c ∈ (createChannel chs body newId health).1, (c.isActive = true ↔ c.id = newId)) ∧
      (∃ c ∈ (createChannel chs body newId health).1, c.id = newId ∧ c.isActive = true)) ∧
    (p.isActive = some true →
      (∀ c ∈ (updateChannel chs uid p).1, (c.isActive = true ↔ c.id = uid)) ∧
      (∃ c ∈ (updateChannel chs uid p).1, c.id = uid ∧ c.isActive = true) ∧
      (updateChannel chs uid p).2.isSome = true) := by
  constructor
  · intro hact
    have hbase := createChannel_base_active_iff chs body newId hact hfresh
    have hiff : ∀ c ∈ (createChannel chs body newId health).1, (c.isActive = true ↔ c.id = newId) := by
      unfold createChannel
      split
      · rename_i q hq
        exact storageUpdate_preserves_active_iff _ newId newId q
          (healthPatchOf_isActive_none health q hq) hbase
      · exact hbase
    refine ⟨hiff, ?_⟩
    have hrow : (newChannelRow body newId) ∈ createChannelPre chs body ++ [newChannelRow body newId] :=
      List.mem_append.mpr (Or.inr (List.mem_singleton.mpr rfl))
    have hone : ∃ c ∈ (createChannel chs body newId health).1, c.id = newId := by
      unfold createChannel
      split
      · rename_i q hq
        refine ⟨if (newChannelRow body newId).id = newId then (newChannelRow body newId).apply q
                else newChannelRow body newId, ?_, ?_⟩
        · exact List.mem_map.mpr ⟨newChannelRow body newId, hrow, rfl⟩
        · simp [newChannelRow, Channel.apply]
      · exact ⟨newChannelRow body newId, hrow, rfl⟩
    rcases hone with ⟨c, hc, hcid⟩
    exact ⟨c, hc, hcid, (hiff c hc).mpr hcid⟩
  · intro hact
    have hiff : ∀ c ∈ (updateChannel chs uid p).1, (c.isActive = true ↔ c.id = uid) := by
      intro c hc
      rcases List.mem_map.mp hc with ⟨d1, hd1, rfl⟩
      by_cases hdid : d1.id = uid
      · rw [if_pos hdid]
        constructor
        · intro _; rw [Channel.apply_id, hdid]
        · intro _; simp [Channel.apply, hact]
      · rw [if_neg hdid]
        rw [updateChannelPre, if_pos hact] at hd1
        rcases List.mem_map.mp hd1 with ⟨d, hd, heq⟩
        constructor
        · intro hca
          exfalso
          by_cases hcond : d.id ≠ uid ∧ d.isActive = true
          · rw [if_pos hcond] at heq
            rw [← heq] at hca
            simp [Channel.apply, ChannelPatch.deactivate] at hca
          · rw [if_neg hcond] at heq
            rw [← heq] at hca hdid
            rcases not_and_or.mp hcond with h1 | h1
            · rw [not_not] at h1
              exact hdid h1
            · exact h1 hca
        · intro hcid; exact absurd hcid hdid
    refine ⟨hiff, ?_, ?_⟩
    · rcases List.mem_map.mp hmem with ⟨d, hd, hdid⟩
      have hd1 : d ∈ updateChannelPre chs uid p := by
        rw [updateChannelPre, if_pos hact]
        have : (if d.id ≠ uid ∧ d.isActive then d.apply ChannelPatch.deactivate else d) = d := by
          rw [if_neg (by simp [hdid])]
        rw [← this]
        exact List.mem_map.mpr ⟨d, hd, rfl⟩
      refine ⟨d.apply p, ?_, ?_, ?_⟩
      · have hmm : (if d.id = uid then d.apply p else d) ∈
            (updateChannelPre chs uid p).map fun c => if c.id = uid then c.apply p else c :=
          List.mem_map.mpr ⟨d, hd1, rfl⟩
        rwa [if_pos hdid] at hmm
      · rw [Channel.apply_id, hdid]
      · simp [Channel.apply, hact]
    · have : (updateChannel chs uid p).2 =
        ((updateChannelPre chs uid p).find? fun c => c.id = uid).map fun c => c.apply p := rfl
      rw [this, Option.isSome_map']
      rw [List.find?_isSome]
      rcases List.mem_map.mp hmem with ⟨d, hd, hdid⟩
      have hd1 : d ∈ updateChannelPre chs uid p := by
        rw [updateChannelPre, if_pos hact]
        have hkeep : (if d.id ≠ uid ∧ d.isActive then d.apply ChannelPatch.deactivate else d) = d := by
          rw [if_neg (by simp [hdid])]
        rw [← hkeep]
        exact List.mem_map.mpr ⟨d, hd, rfl⟩
      exact ⟨d, hd1, by simp [hdid]⟩

/-- C8 witness: creating an active channel c3 over the concrete state
[c1 active, c2 inactive] leaves exactly c3 active; updating c2 to
active leaves exactly c2 active. -/
theorem at_most_one_active_channel_witness :
    (∀ c ∈ (createChannel [chActive, chIdle] bodyNewActive "c3" (some true)).1,
      (c.isActive = true ↔ c.id = "c3")) ∧
    (∀ c ∈ (updateChannel [chActive, chIdle] "c2"
        { isActive := some true, healthStatus := none }).1,
      (c.isActive = true ↔ c.id = "c2")) := by
  have h := at_most_one_active_channel [chActive, chIdle] bodyNewActive "c3"
    (some true) "c2" { isActive := some true, healthStatus := none }
    (by decide) (by decide) (by decide) (by decide)
  exact ⟨(h.1 rfl).1, (h.2 rfl).1⟩

/-- C9: `createContact` answers 409 and creates nothing exactly when
the resolved contact set (the contacts of the requested channel, else
of the active channel, else all contacts) already holds the requested
phone; otherwise it creates and returns the new contact (with the
resolved channel id attached).  Stated for bodies that pass
`insertContactSchema.parse`; an invalid body throws before any of this
runs. -/
theorem createContact_duplicate_phone_409 (chs : List Channel)
    (cts : List ContactRow) (queryChannelId : Option String) (body : ContactBody)
    (newId : String) (v : ValidContact) (hparse : parseContact body = some v) :
    ((∃ c ∈ duplicateScope cts (resolveChannelId chs queryChannelId), c.phone = v.phone) →
      (createContact chs cts queryChannelId body newId).1 = .error 409 ∧
      (createContact chs cts queryChannelId body newId).2 = cts) ∧
    ((¬ ∃ c ∈ duplicateScope cts (resolveChannelId chs queryChannelId), c.phone = v.phone) →
      ∃ r, (createContact chs cts queryChannelId body newId).1 = .ok r ∧
        (createContact chs cts queryChannelId body newId).2 = cts ++ [r] ∧
        r.phone = v.phone ∧ r.name = v.name ∧ r.id = newId ∧
        r.channelId = resolveChannelId chs queryChannelId) := by
  constructor
  · rintro ⟨c, hc, hph⟩
    have hdup : ((duplicateScope cts (resolveChannelId chs queryChannelId)).any
        fun d => d.phone = v.phone) = true := by
      simp only [List.any_eq_true, decide_eq_true_eq]
      exact ⟨c, hc, hph⟩
    constructor <;> simp [createContact, hparse, hdup]
  · intro hnone
    have hdup : ((duplicateScope cts (resolveChannelId chs queryChannelId)).any
        fun d => d.phone = v.phone) = false := by
      simp only [List.any_eq_false, decide_eq_true_eq]
      intro c hc hph
      exact hnone ⟨c, hc, hph⟩
    refine ⟨{ id := newId, channelId := resolveChannelId chs queryChannelId,
              name := v.name, phone := v.phone, email := v.email }, ?_, ?_, rfl, rfl, rfl, rfl⟩
    · simp [createContact, hparse, hdup]
    · simp [createContact, hparse, hdup]

/-- C9 witness: with channel c1 active and contact phone 111 stored on
it, creating phone 111 again is rejected with 409 and the store is
unchanged, while phone 222 is created. -/
theorem createContact_duplicate_phone_409_witness :
    ((createContact [chActive] [contact111] none bodyDup111 "k2").1 = .error 409 ∧
     (createContact [chActive] [contact111] none bodyDup111 "k2").2 = [contact111]) ∧
    (∃ r, (createContact [chActive] [contact111] none bodyNew222 "k3").1 = .ok r ∧
      (createContact [chActive] [contact111] none bodyNew222 "k3").2 = [contact111] ++ [r] ∧
      r.phone = "222" ∧ r.name = "Bob" ∧ r.id = "k3" ∧
      r.channelId = resolveChannelId [chActive] none) := by
  constructor
  · exact (createContact_duplicate_phone_409 [chActive] [contact111] none bodyDup111 "k2"
      { channelId := none, name := "Eve", phone := "111", email := none } (by decide)).1
      ⟨contact111, by decide, by decide⟩
  · exact (createContact_duplicate_phone_409 [chActive] [contact111] none bodyNew222 "k3"
      { channelId := none, name := "Bob", phone := "222", email := none } (by decide)).2
      (by decide)

/-- Each `importContacts` loop iteration classifies its entry into
exactly one of created / duplicate / failed. -/
theorem importStep_adds_one (channelId : Option String) (mkId : Nat → String)
    (st : ImportState) (c : ContactBody) :
    (importStep channelId mkId st c).createdRows.length +
      (importStep channelId mkId st c).dups +
      (importStep channelId mkId st c).fails =
    st.createdRows.length + st.dups + st.fails + 1 := by
  unfold importStep
  split
  · simp only []
    omega
  · split
    · simp only []
      omega
    · simp only [List.length_append, List.length_singleton]
      omega

/-- One `importContacts` loop iteration preserves the phone-set
invariant. -/
theorem importStep_preserves_inv (phones0 : List String) (channelId : Option String)
    (mkId : Nat → String) (st : ImportState) (c : ContactBody)
    (h : ImportInv phones0 st) : ImportInv phones0 (importStep channelId mkId st c) := by
  unfold importStep
  split
  · exact h
  · split
    · exact h
    · rename_i hseen hdisc v hv
      obtain ⟨h1, h2, h3⟩ := h
      have hphone : c.phone = some v.phone := by
        unfold parseContact at hv
        rcases hn : c.name with - | nm <;> rcases hp : c.phone with - | ph <;>
          simp only [hn, hp] at hv
        · exact absurd hv (by simp)
        · exact absurd hv (by simp)
        · exact absurd hv (by simp)
        · simp only [Option.some.injEq] at hv
          rw [← hv]
      have hnotin : v.phone ∉ st.phones := by
        intro hmem
        apply hseen
        simp only [phoneSeen, hphone]
        exact List.elem_eq_true_of_mem hmem
      have hnotin0 : v.phone ∉ phones0 := by
        intro hmem
        exact hnotin (h1 ▸ List.mem_append.mpr (Or.inl hmem))
      have hnotinMap : v.phone ∉ st.createdRows.map ContactRow.phone := by
        intro hmem
        exact hnotin (h1 ▸ List.mem_append.mpr (Or.inr hmem))
      refine ⟨?_, ?_, ?_⟩
      · simp [h1, List.map_append]
      · simp only [List.map_append]
        rw [List.nodup_append]
        refine ⟨h2, List.nodup_singleton _, ?_⟩
        intro p hp hq
        simp only [List.map_singleton, List.mem_singleton] at hq
        exact hnotinMap (hq ▸ hp)
      · intro p hp
        simp only [List.map_append, List.map_singleton] at hp
        rcases List.mem_append.mp hp with hpold | hpnew
        · exact h3 p hpold
        · rw [List.mem_singleton.mp hpnew]
          exact hnotin0

/-- Summing the `importContacts` loop over any input partitions it. -/
theorem importLoop_counts (channelId : Option String) (mkId : Nat → String)
    (input : List ContactBody) : ∀ st : ImportState,
    (input.foldl (importStep channelId mkId) st).createdRows.length +
      (input.foldl (importStep channelId mkId) st).dups +
      (input.foldl (importStep channelId mkId) st).fails =
    st.createdRows.length + st.dups + st.fails + input.length := by
  induction input with
  | nil => intro st; simp
  | cons c tl ih =>
      intro st
      simp only [List.foldl_cons, List.length_cons]
      rw [ih (importStep channelId mkId st c)]
      rw [importStep_adds_one]
      omega

/-- The phone-set invariant holds after the whole `importContacts`
loop. -/
theorem importLoop_preserves_inv (phones0 : List String) (channelId : Option String)
    (mkId : Nat → String) (input : List ContactBody) : ∀ st : ImportState,
    ImportInv phones0 st →
    ImportInv phones0 (input.foldl (importStep channelId mkId) st) := by
  induction input with
  | nil => intro st h; simpa using h
  | cons c tl ih =>
      intro st h
      simp only [List.foldl_cons]
      exact ih (importStep channelId mkId st c)
        (importStep_preserves_inv phones0 channelId mkId st c h)

/-- C10 counterexample: importing [entry without name but with phone
111, valid entry with phone 111] into an empty store reports created 1,
duplicates 0, failed 1: the second entry's phone duplicates an earlier
contact of the same import, yet it is created and not counted as a
duplicate, because the phone of an entry that failed validation is
never added to the dedup set. -/
theorem importContacts_earlier_failed_phone_not_deduped :
    (importContacts [] [] none none [importBad111, importGood111] mkIdDemo).1 =
      { created := 1, duplicates := 0, failed := 1, total := 2 } ∧
    importBad111.phone = some "111" ∧
    (∃ c ∈ (importContacts [] [] none none [importBad111, importGood111] mkIdDemo).2.1,
      c.phone = "111") := by
  decide


/-- An entry whose phone is already in the running phone set is
classified by the loop as a duplicate: the iteration is exactly the
duplicates-counter increment and touches nothing else - in particular
it creates no contact. -/
theorem importStep_seen_is_duplicate (channelId : Option String) (mkId : Nat → String)
    (st : ImportState) (c : ContactBody) (h : phoneSeen st.phones c = true) :
    importStep channelId mkId st c = { st with dups := st.dups + 1 } := by
  unfold importStep
  rw [if_pos h]

/-- The duplicates counter never decreases along the loop. -/
theorem importLoop_dups_mono (channelId : Option String) (mkId : Nat → String)
    (input : List ContactBody) : ∀ st : ImportState,
    st.dups ≤ (input.foldl (importStep channelId mkId) st).dups := by
  induction input with
  | nil => intro st; exact Nat.le_refl _
  | cons c tl ih =>
      intro st
      simp only [List.foldl_cons]
      refine Nat.le_trans ?_ (ih (importStep channelId mkId st c))
      unfold importStep
      split
      · exact Nat.le_succ _
      · split
        · exact Nat.le_refl _
        · exact Nat.le_refl _

/-- C10 amended: the reported created, duplicates and failed counts sum
to the reported total, which equals the input length; no created
contact's phone duplicates a phone of the pre-existing duplicate-check
scope, and the created contacts' phones are pairwise distinct.
Moreover the classification itself: wherever the input splits as
`input1 ++ c :: input2` with the phone of `c` already present among the
scope's existing contacts or among the contacts created while
processing `input1`, the loop iteration at `c` is exactly the
duplicates-counter increment - it creates nothing - and the reported
duplicates count exceeds the prefix's.  (Phones of entries that failed
validation are not tracked, so an entry repeating such a phone is
created rather than counted as a duplicate.) -/
theorem importContacts_partition_and_dedup (chs : List Channel)
    (cts : List ContactRow) (bodyChannelId queryChannelId : Option String)
    (input : List ContactBody) (mkId : Nat → String) :
    (importContacts chs cts bodyChannelId queryChannelId input mkId).1.created +
      (importContacts chs cts bodyChannelId queryChannelId input mkId).1.duplicates +
      (importContacts chs cts bodyChannelId queryChannelId input mkId).1.failed =
      (importContacts chs cts bodyChannelId queryChannelId input mkId).1.total ∧
    (importContacts chs cts bodyChannelId queryChannelId input mkId).1.total = input.length ∧
    (∀ c ∈ (importContacts chs cts bodyChannelId queryChannelId input mkId).2.1,
      c.phone ∉ (duplicateScope cts (resolveChannelId chs (bodyChannelId <|> queryChannelId))).map
        ContactRow.phone) ∧
    ((importContacts chs cts bodyChannelId queryChannelId input mkId).2.1.map
      ContactRow.phone).Nodup ∧
    (∀ (input1 : List ContactBody) (c : ContactBody) (input2 : List ContactBody) (p : String),
      input = input1 ++ c :: input2 →
      c.phone = some p →
      p ∈ (duplicateScope cts (resolveChannelId chs (bodyChannelId <|> queryChannelId))).map
          ContactRow.phone ++
        (importStateAfter chs cts bodyChannelId queryChannelId input1 mkId).createdRows.map
          ContactRow.phone →
      importStep (resolveChannelId chs (bodyChannelId <|> queryChannelId)) mkId
          (importStateAfter chs cts bodyChannelId queryChannelId input1 mkId) c =
        { importStateAfter chs cts bodyChannelId queryChannelId input1 mkId with
          dups := (importStateAfter chs cts bodyChannelId queryChannelId input1 mkId).dups + 1 } ∧
      (importStep (resolveChannelId chs (bodyChannelId <|> queryChannelId)) mkId
          (importStateAfter chs cts bodyChannelId queryChannelId input1 mkId) c).createdRows =
        (importStateAfter chs cts bodyChannelId queryChannelId input1 mkId).createdRows ∧
      (importContacts chs cts bodyChannelId queryChannelId input mkId).1.duplicates ≥
        (importStateAfter chs cts bodyChannelId queryChannelId input1 mkId).dups + 1) := by
  have hinv := importLoop_preserves_inv
    ((duplicateScope cts (resolveChannelId chs (bodyChannelId <|> queryChannelId))).map
      ContactRow.phone)
    (resolveChannelId chs (bodyChannelId <|> queryChannelId)) mkId input
    { phones := (duplicateScope cts (resolveChannelId chs (bodyChannelId <|> queryChannelId))).map
        ContactRow.phone
      createdRows := []
      dups := 0
      fails := 0 }
    ⟨by simp, by simp, by simp⟩
  obtain ⟨hph, hnd, hnot⟩ := hinv
  have hcounts := importLoop_counts
    (resolveChannelId chs (bodyChannelId <|> queryChannelId)) mkId input
    { phones := (duplicateScope cts (resolveChannelId chs (bodyChannelId <|> queryChannelId))).map
        ContactRow.phone
      createdRows := []
      dups := 0
      fails := 0 }
  refine ⟨?_, rfl, ?_, ?_, ?_⟩
  · simp only [importContacts]
    simp only [List.length_nil, Nat.zero_add] at hcounts
    exact hcounts
  · intro c hc
    exact hnot c.phone (List.mem_map.mpr ⟨c, hc, rfl⟩)
  · exact hnd
  · intro input1 c input2 p hsplit hcp hpmem
    have hinv1 := importLoop_preserves_inv
      ((duplicateScope cts (resolveChannelId chs (bodyChannelId <|> queryChannelId))).map
        ContactRow.phone)
      (resolveChannelId chs (bodyChannelId <|> queryChannelId)) mkId input1
      { phones := (duplicateScope cts (resolveChannelId chs (bodyChannelId <|> queryChannelId))).map
          ContactRow.phone
        createdRows := []
        dups := 0
        fails := 0 }
      ⟨by simp, by simp, by simp⟩
    have hphones : (importStateAfter chs cts bodyChannelId queryChannelId input1 mkId).phones =
        (duplicateScope cts (resolveChannelId chs (bodyChannelId <|> queryChannelId))).map
          ContactRow.phone ++
        (importStateAfter chs cts bodyChannelId queryChannelId input1 mkId).createdRows.map
          ContactRow.phone := hinv1.1
    have hseen : phoneSeen
        (importStateAfter chs cts bodyChannelId queryChannelId input1 mkId).phones c = true := by
      simp only [phoneSeen, hcp]
      rw [hphones]
      exact List.elem_eq_true_of_mem hpmem
    refine ⟨importStep_seen_is_duplicate _ mkId _ c hseen, ?_, ?_⟩
    · rw [importStep_seen_is_duplicate _ mkId _ c hseen]
    · subst hsplit
      have hfinal : (importContacts chs cts bodyChannelId queryChannelId
          (input1 ++ c :: input2) mkId).1.duplicates =
          (input2.foldl (importStep (resolveChannelId chs (bodyChannelId <|> queryChannelId)) mkId)
            (importStep (resolveChannelId chs (bodyChannelId <|> queryChannelId)) mkId
              (importStateAfter chs cts bodyChannelId queryChannelId input1 mkId) c)).dups := by
        simp only [importContacts, importStateAfter, List.foldl_append, List.foldl_cons]
      rw [hfinal]
      have h1 : (importStateAfter chs cts bodyChannelId queryChannelId input1 mkId).dups + 1 ≤
          (importStep (resolveChannelId chs (bodyChannelId <|> queryChannelId)) mkId
            (importStateAfter chs cts bodyChannelId queryChannelId input1 mkId) c).dups := by
        rw [importStep_seen_is_duplicate _ mkId _ c hseen]
      exact Nat.le_trans h1
        (importLoop_dups_mono (resolveChannelId chs (bodyChannelId <|> queryChannelId)) mkId input2
          (importStep (resolveChannelId chs (bodyChannelId <|> queryChannelId)) mkId
            (importStateAfter chs cts bodyChannelId queryChannelId input1 mkId) c))

/-- C10 amended, witness: on the concrete import [valid phone 111,
valid phone 111 again] into an empty store, the second entry's
iteration is exactly the duplicates increment (creating nothing) and
the reported duplicates count reflects it; on the import [phone 111]
into a store already holding contact 111, the single entry is likewise
classified as a duplicate; and the partition identity holds on the
counterexample input. -/
theorem importContacts_partition_and_dedup_witness :
    (importStep (resolveChannelId [] (none <|> none)) mkIdDemo
        (importStateAfter [] [] none none [importGood111] mkIdDemo) bodyDup111 =
      { importStateAfter [] [] none none [importGood111] mkIdDemo with
        dups := (importStateAfter [] [] none none [importGood111] mkIdDemo).dups + 1 } ∧
     (importContacts [] [] none none [importGood111, bodyDup111] mkIdDemo).1.duplicates ≥
       (importStateAfter [] [] none none [importGood111] mkIdDemo).dups + 1) ∧
    (importStep (resolveChannelId [] (none <|> none)) mkIdDemo
        (importStateAfter [] [contact111] none none [] mkIdDemo) bodyDup111 =
      { importStateAfter [] [contact111] none none [] mkIdDemo with
        dups := (importStateAfter [] [contact111] none none [] mkIdDemo).dups + 1 }) ∧
    (importContacts [] [] none none [importBad111, importGood111] mkIdDemo).1.created +
      (importContacts [] [] none none [importBad111, importGood111] mkIdDemo).1.duplicates +
      (importContacts [] [] none none [importBad111, importGood111] mkIdDemo).1.failed =
      (importContacts [] [] none none [importBad111, importGood111] mkIdDemo).1.total := by
  have h1 := (importContacts_partition_and_dedup [] [] none none
    [importGood111, bodyDup111] mkIdDemo).2.2.2.2
    [importGood111] bodyDup111 [] "111" rfl rfl (by decide)
  have h2 := (importContacts_partition_and_dedup [] [contact111] none none
    [bodyDup111] mkIdDemo).2.2.2.2
    [] bodyDup111 [] "111" rfl rfl (by decide)
  have h3 := (importContacts_partition_and_dedup [] [] none none
    [importBad111, importGood111] mkIdDemo).1
  exact ⟨⟨h1.1, h1.2.2⟩, h2.1, h3⟩
